import Mathlib

/-
  Verification of the scrapix crawl-to-index core against its code.

  The definitions below are shallow embeddings of:
  - the document Sender (apps/scraper/core/src/sender.ts): queueing,
    threshold-triggered batch flushes, retry with exponential backoff,
    synchronous final flush, staging-index swap, completion webhook;
  - the BaseCrawler URL classification and page handling
    (apps/scraper/core/src/crawlers/base.ts);
  - the feature pipeline steps full_page.ts, block_split.ts,
    ai_summary.ts and ai_extraction.ts.

  External collaborators (the Meilisearch client, cheerio selector
  matching, minimatch, the OpenAI HTTP client, the JS event loop) are
  modelled as explicit parameters or explicit interleaving events.
-/

namespace Scrapix

/-! ## Documents (types.ts DocumentType, as far as the Sender looks at it)

The Sender only ever inspects the uid field of a document
(sender.ts add: the data.uid warning and the delete of the uid key when a
custom primary key is configured).  All other page-authored fields are
carried opaquely as a key/value list. -/

structure Doc where
  uid : Option String
  fields : List (String × String)
deriving DecidableEq, Repr

/-! ## Sender configuration (the part of Config read by sender.ts) -/

structure SenderConfig where
  /-- this.batch_size is config.batch_size or else 1000; the value 0 models
  a falsy batch_size (only reachable by mutating the field directly). -/
  batch_size : Nat
  primary_key : Option String
deriving DecidableEq, Repr

/-- Retry constants from constants.ts (defaults, env overrides aside). -/
def RETRY_MAX_ATTEMPTS : Nat := 3

def RETRY_BASE_DELAY : Nat := 1000

def RETRY_MAX_DELAY : Nat := 10000

/-! ## Sender state and the interleaving model of add / flush

sender.ts add pushes onto this.queue and, when the queue length reaches
batch_size, calls the async method that sends the batch WITHOUT awaiting
it.  That method passes this.queue to client.addDocuments (the payload is
serialized synchronously at call time) and clears this.queue only after
the awaited index write resolves.  We model each such in-flight write as
an entry of inflight, and its later resolution as a separate event, so
that arbitrary event-loop interleavings of add calls and write
resolutions can be examined. -/

structure SenderState where
  queue : List Doc
  pendingTasks : List Nat
  nb_documents_sent : Nat
  /-- payloads captured by threshold-triggered flushes whose index write
  has not resolved yet, oldest first. -/
  inflight : List (List Doc)
  /-- payload captured by each threshold-triggered flush, in trigger
  order: the documents that flush claims. -/
  flushLog : List (List Doc)
  /-- documents written directly when batch_size is falsy. -/
  directSends : List Doc
  nextTask : Nat
deriving DecidableEq, Repr

def senderInit : SenderState :=
  { queue := [], pendingTasks := [], nb_documents_sent := 0,
    inflight := [], flushLog := [], directSends := [], nextTask := 0 }

/-- The uid handling at the top of add (sender.ts:420-422): if a custom
primary key other than uid is configured, the uid key is deleted from the
document in place. -/
def applyPrimaryKey (cfg : SenderConfig) (data : Doc) : Doc :=
  match cfg.primary_key with
  | some pk => if pk ≠ "uid" then { data with uid := none } else data
  | none => data

/-- One call to add (sender.ts:414-439).  nb_documents_sent is incremented
first; then the uid handling; then, with a truthy batch_size, the document
is pushed and, if the queue length reached batch_size, a background flush
starts: it synchronously captures the current queue as its payload and
suspends awaiting the index write (the queue is NOT cleared here; it is
cleared when that write resolves). -/
def senderAdd (cfg : SenderConfig) (s : SenderState) (data : Doc) : SenderState :=
  let s := { s with nb_documents_sent := s.nb_documents_sent + 1 }
  let data := applyPrimaryKey cfg data
  if cfg.batch_size ≠ 0 then
    let queue := s.queue ++ [data]
    if cfg.batch_size ≤ queue.length then
      { s with queue := queue,
               inflight := s.inflight ++ [queue],
               flushLog := s.flushLog ++ [queue] }
    else
      { s with queue := queue }
  else
    { s with directSends := s.directSends ++ [data] }

/-- Resolution of the oldest in-flight index write (sender.ts:555-566 on
success): the task uid is recorded in pendingTasks and this.queue is
reassigned to the empty array. -/
def senderResolveFlush (s : SenderState) : SenderState :=
  match s.inflight with
  | [] => s
  | _ :: rest =>
      { s with inflight := rest,
               pendingTasks := s.pendingTasks ++ [s.nextTask],
               nextTask := s.nextTask + 1,
               queue := [] }

inductive SenderEvent where
  | add (d : Doc)
  | resolve
deriving DecidableEq, Repr

def senderStep (cfg : SenderConfig) (s : SenderState) : SenderEvent → SenderState
  | .add d => senderAdd cfg s d
  | .resolve => senderResolveFlush s

/-- A crawl-side schedule: the sequence of add calls and index-write
resolutions as ordered by the event loop. -/
def senderRun (cfg : SenderConfig) (events : List SenderEvent) : SenderState :=
  events.foldl (senderStep cfg) senderInit

/-- One add under the benign schedule: any index write the add triggered
resolves before anything else runs. -/
def promptStep (cfg : SenderConfig) (s : SenderState) (d : Doc) : SenderState :=
  let s := senderAdd cfg s d
  if s.inflight ≠ [] then senderResolveFlush s else s

/-- The benign schedule in which every threshold-triggered index write
resolves before the next add call runs. -/
def senderRunPrompt (cfg : SenderConfig) (docs : List Doc) : SenderState :=
  docs.foldl (promptStep cfg) senderInit

/-- Consecutive two-element chunks of a list (the batches a batch size of
2 should cut, under the claimed one-flush-per-crossing discipline). -/
def pairChunks : List Doc → List (List Doc)
  | a :: b :: t => [a, b] :: pairChunks t
  | _ => []

/-- What remains after removing consecutive two-element chunks. -/
def pairRest : List Doc → List Doc
  | _ :: _ :: t => pairRest t
  | l => l

/-- Shorthand for a test document carrying a numbered uid. -/
def mkDoc (n : Nat) : Doc := { uid := some (toString n), fields := [] }

def batchTwoConfig : SenderConfig := { batch_size := 2, primary_key := none }

/-! ## The retry loop of the background batch send (sender.ts:552-603)

The method tries client.addDocuments; on rejection it increments
this.retryCount and, while retryCount is at most MAX_ATTEMPTS, sleeps
min (BASE_DELAY * 2 ^ (retryCount - 1)) MAX_DELAY milliseconds and calls
itself again; once retryCount exceeds MAX_ATTEMPTS it throws a
SENDER_BATCH_FAILED ScrapixError whose details carry the queue size and
the last underlying error.  Attempt n of the index write is modelled by
the predicate fail n (n counted from 1); the error value raised by a
failing attempt n is modelled as n itself. -/

inductive FlushOutcome where
  /-- the write succeeded on the attempt numbered task. -/
  | ok (attempt : Nat)
  /-- SENDER_BATCH_FAILED, details queueSize and lastError. -/
  | fatal (queueSize : Nat) (lastError : Nat)
deriving DecidableEq, Repr

/-- attempt is this.retryCount + 1 (the attempt about to run);
retriesLeft is MAX_ATTEMPTS - this.retryCount, so the source guard
retryCount + 1 <= MAX_ATTEMPTS after the increment is exactly
retriesLeft > 0, and the sleep before the next call is
min (BASE_DELAY * 2 ^ (retryCount - 1)) MAX_DELAY for the incremented
retryCount, i.e. exponent attempt - 1. -/
def batchSendGo (fail : Nat → Bool) (queueSize : Nat) :
    Nat → Nat → FlushOutcome × List Nat
  | attempt, 0 =>
      if fail attempt then (.fatal queueSize attempt, [])
      else (.ok attempt, [])
  | attempt, retriesLeft + 1 =>
      if fail attempt then
        let delay := min (RETRY_BASE_DELAY * 2 ^ (attempt - 1)) RETRY_MAX_DELAY
        let rest := batchSendGo fail queueSize (attempt + 1) retriesLeft
        (rest.1, delay :: rest.2)
      else (.ok attempt, [])

/-- A full run of the background batch send, started by add with
this.retryCount reset to 0: the first attempt is numbered 1 and up to
MAX_ATTEMPTS retries may follow. -/
def batchSend (fail : Nat → Bool) (queueSize : Nat) : FlushOutcome × List Nat :=
  batchSendGo fail queueSize 1 RETRY_MAX_ATTEMPTS

/-- What the caller of add observes of a threshold-triggered flush
(sender.ts:426-434): the flush promise is not awaited and carries a catch
handler that only logs, so whatever the flush settles to - including the
final SENDER_BATCH_FAILED error after the retry budget is exhausted - is
consumed by that handler and nothing is ever thrown to the crawl. -/
structure ThresholdFlushObs where
  result : FlushOutcome
  delays : List Nat
  /-- error consumed by the catch-and-log handler installed in add. -/
  loggedError : Option FlushOutcome
  /-- error propagated to the code that called add: none, always. -/
  thrownToCaller : Option FlushOutcome
deriving DecidableEq, Repr

def thresholdFlushObs (fail : Nat → Bool) (queueSize : Nat) : ThresholdFlushObs :=
  let r := batchSend fail queueSize
  match r.1 with
  | .ok t => { result := .ok t, delays := r.2, loggedError := none, thrownToCaller := none }
  | .fatal q e =>
      { result := .fatal q e, delays := r.2,
        loggedError := some (.fatal q e), thrownToCaller := none }

/-! ## The synchronous final flush (sender.ts:605-631)

Called by finish for a non-empty queue; it sends the queue, awaits the
task, adds the queue length to nb_documents_sent and clears the queue.
On failure it rethrows immediately - there is no retry here - and finish
propagates the error, failing the crawl. -/

def batchSendSync (failSync : Bool) (s : SenderState) : Except Nat SenderState :=
  if s.queue = [] then .ok s
  else if failSync then .error s.queue.length
  else
    .ok { s with nb_documents_sent := s.nb_documents_sent + s.queue.length,
                 queue := [] }

/-- The document count reported by the completed webhook at the end of
finish (sender.ts:508-550): after the synchronous flush of the remaining
queue, webhook.completed is called with nb_documents_sent.  none models a
crawl failed by a throwing synchronous flush. -/
def finishCompletedCount (failSync : Bool) (s : SenderState) : Option Nat :=
  match batchSendSync failSync s with
  | .ok s2 => some s2.nb_documents_sent
  | .error _ => none

/-! ## The staging-index resolution inside finish (sender.ts:531-541)

An index store maps index names to their document payloads.  swapIndexes
models the atomic Meilisearch content swap of two index names;
deleteIndex removes a name. -/

abbrev IndexStore := List (String × List Doc)

def lookupIndex (st : IndexStore) (n : String) : Option (List Doc) :=
  (st.find? (fun p => p.1 == n)).map (fun p => p.2)

def deleteIndex (st : IndexStore) (n : String) : IndexStore :=
  st.filter (fun p => p.1 != n)

def swapIndexes (st : IndexStore) (a b : String) : IndexStore :=
  let ca := (lookupIndex st a).getD []
  let cb := (lookupIndex st b).getD []
  st.map (fun p => if p.1 = a then (a, cb) else if p.1 = b then (b, ca) else p)

/-- sender.ts:531-541: read the stats of the index being written to; if it
is a staging index distinct from the live one and holds at least one
document, swap it into the live name and delete the staging name
(sender.ts:633-640 swapIndexes then deleteIndex); if it is a distinct
staging index with zero documents, delete it without swapping; if the
live index was written directly, do nothing. -/
def finishIndexes (st : IndexStore) (initial_index_uid index_uid : String) :
    IndexStore :=
  let stats := ((lookupIndex st index_uid).getD []).length
  if index_uid ≠ initial_index_uid ∧ 0 < stats then
    deleteIndex (swapIndexes st initial_index_uid index_uid) index_uid
  else if index_uid ≠ initial_index_uid then
    deleteIndex st index_uid
  else st

/-! ## AI feature steps (ai_summary.ts, ai_extraction.ts)

The document as these two steps see it: the page-authored fields are
carried opaquely in base, and the two AI-owned fields are explicit.  The
OpenAI HTTP call is an external collaborator, modelled by an explicit
outcome, and JSON.parse by an explicit partial parse function. -/

structure AIDoc where
  base : List (String × String)
  ai_extraction : Option (List (String × String))
  ai_summary : Option String
deriving DecidableEq, Repr

inductive AICallResult where
  | ok (content : String)
  | failed
deriving DecidableEq, Repr

/-- processAISummary (ai_summary.ts:80-138): skipped when not activated or
no api key; on a successful call the summary is added; the catch block
returns the input document. -/
def processAISummary (activated apiKey : Bool) (call : AICallResult)
    (doc : AIDoc) : AIDoc :=
  if !activated then doc
  else if !apiKey then doc
  else
    match call with
    | .ok s => { doc with ai_summary := some s }
    | .failed => doc

/-- processAIExtraction (ai_extraction.ts:193-284): skipped when not
activated, no api key, or no prompt.  On a successful call whose content
parses, the parsed value is stored under the prompt key; when parsing
fails, the marker Failed to parse result is stored instead; when the call
itself fails, the marker Extraction failed is stored; in both failure
cases the document is returned WITH the ai_extraction field set, not
unchanged.  Only the outer catch (around html cleaning) returns the input
document. -/
def processAIExtraction (activated apiKey : Bool) (prompt : Option String)
    (call : AICallResult) (parse : String → Option String)
    (doc : AIDoc) : AIDoc :=
  if !activated then doc
  else if !apiKey then doc
  else
    match prompt with
    | none => doc
    | some p =>
      match call with
      | .ok content =>
          match parse content with
          | some j => { doc with ai_extraction := some [(p, j)] }
          | none =>
              { doc with ai_extraction := some [(p, "Failed to parse result")] }
      | .failed =>
          { doc with ai_extraction := some [(p, "Extraction failed")] }

/-! ## URL classification (base.ts:226-237 and base.ts:71-87)

minimatch is an external collaborator, abstracted as a matcher m. -/

structure CrawlerUrlConfig where
  start_urls : List String
  urls_to_exclude : Option (List String)
  urls_to_index : Option (List String)
  urls_to_not_index : Option (List String)
deriving DecidableEq, Repr

def charsLeading : List Char → List Char → Bool
  | [], _ => true
  | _ :: _, [] => false
  | a :: as, b :: bs => a == b && charsLeading as bs

def charsInside (needle : List Char) : List Char → Bool
  | [] => charsLeading needle []
  | c :: t => charsLeading needle (c :: t) || charsInside needle t

/-- JavaScript String.endsWith, spelled out over character lists. -/
def strEndsWith (s suf : String) : Bool :=
  charsLeading suf.toList.reverse s.toList.reverse

/-- base.ts:226-233: each url expands to itself plus the recursive
wildcard form. -/
def generate_globs (urls : List String) : List String :=
  urls.flatMap (fun url =>
    if strEndsWith url "/" then [url, url ++ "**"] else [url, url ++ "/**"])

/-- base.ts:235-237. -/
def match_globs (m : String → String → Bool) (url : String)
    (globs : List String) : Bool :=
  globs.any (fun glob => m url glob)

/-- The wildcard pattern paired with a url by generate_globs. -/
def wildcardOf (url : String) : String :=
  if strEndsWith url "/" then url ++ "**" else url ++ "/**"

def indexedGlobs (c : CrawlerUrlConfig) : List String :=
  generate_globs (c.urls_to_index.getD c.start_urls)

def excludedIndexedGlobs (c : CrawlerUrlConfig) : List String :=
  generate_globs (c.urls_to_not_index.getD [])

/-- Extraction eligibility test of handlePage (base.ts:84-87). -/
def extractionEligible (m : String → String → Bool) (c : CrawlerUrlConfig)
    (url : String) : Bool :=
  match_globs m url (indexedGlobs c) && !match_globs m url (excludedIndexedGlobs c)

def crawledGlobs (c : CrawlerUrlConfig) : List String :=
  generate_globs c.start_urls

def excludedCrawledGlobs (c : CrawlerUrlConfig) : List String :=
  generate_globs (c.urls_to_exclude.getD [])

/-- Traversal eligibility: handlePage passes crawledGlobs as globs and
excludedCrawledGlobs as exclude to the external enqueueLinks
(base.ts:190-203), whose contract accepts a link that matches some glob
and no exclude pattern. -/
def traversalEligible (m : String → String → Bool) (c : CrawlerUrlConfig)
    (url : String) : Bool :=
  match_globs m url (crawledGlobs c) && !match_globs m url (excludedCrawledGlobs c)

/-! ## Soft-404 detection (base.ts:318-373) and page handling control flow -/

/-- A parsed page, as far as the classifier looks at it: which CSS
selectors have at least one match (cheerio is external), and the body
text with scripts removed. -/
structure ParsedPage where
  selectorMatches : List String
  bodyText : String
deriving DecidableEq, Repr

def ParsedPage.hits (page : ParsedPage) (selector : String) : Bool :=
  page.selectorMatches.contains selector

def defaultSelectors : List String :=
  ["h1:contains(\"404\")",
   "h1:contains(\"Page Not Found\")",
   "title:contains(\"404\")",
   "div:contains(\"404\"), span:contains(\"404\")",
   ".error-404",
   ".not-found",
   "#error-page",
   "[data-error=\"404\"]",
   "[data-page-type=\"404\"]"]

def commonErrorTexts : List String :=
  ["page not found",
   "page doesn\u0027t exist",
   "page could not be found",
   "404 error"]

/-- JavaScript String.includes on lowercased text. -/
def strIncludes (hay needle : String) : Bool :=
  charsInside needle.toList hay.toList

def lowerStr (s : String) : String := (s.toList.map Char.toLower).asString

/-- base.ts:318-373 is404Page: with a non-empty custom selector list only
those selectors are consulted; otherwise a page is not-found when some
default selector matches or the lowercased body text includes one of the
common error phrases. -/
def is404Page (not_found_selectors : Option (List String))
    (page : ParsedPage) : Bool :=
  match not_found_selectors with
  | some sels =>
      if sels.length > 0 then sels.any page.hits
      else
        defaultSelectors.any page.hits ||
          commonErrorTexts.any (fun t => strIncludes (lowerStr page.bodyText) t)
  | none =>
      defaultSelectors.any page.hits ||
        commonErrorTexts.any (fun t => strIncludes (lowerStr page.bodyText) t)

/-- Effects of one handlePage call (base.ts:53-224) on its observable
outputs. -/
structure PageOutcome where
  crawledIncrement : Nat
  indexedIncrement : Nat
  /-- scraper.get ran, i.e. documents were produced for the page. -/
  scraped : Bool
  linksEnqueued : Bool
deriving DecidableEq, Repr

/-- Control flow of handlePage for a loaded page: nb_page_crawled always
increments; for an extraction-eligible url with a usable cheerio handle,
a soft-404 page RETURNS EARLY - before nb_page_indexed, before
scraper.get and before the enqueueLinks call at the end of the handler;
a clean eligible page is scraped (a scraper error is caught and links are
still enqueued); an ineligible page skips straight to enqueueLinks. -/
def handlePage (m : String → String → Bool) (c : CrawlerUrlConfig)
    (not_found_selectors : Option (List String)) (cheerioOk : Bool)
    (url : String) (page : ParsedPage) : PageOutcome :=
  if extractionEligible m c url then
    if !cheerioOk then
      { crawledIncrement := 1, indexedIncrement := 0, scraped := false,
        linksEnqueued := false }
    else if is404Page not_found_selectors page then
      { crawledIncrement := 1, indexedIncrement := 0, scraped := false,
        linksEnqueued := false }
    else
      { crawledIncrement := 1, indexedIncrement := 1, scraped := true,
        linksEnqueued := true }
  else
    { crawledIncrement := 1, indexedIncrement := 0, scraped := false,
      linksEnqueued := true }

/-! ## Base page extraction (full_page.ts:7-144)

A block object under construction.  A JavaScript object field is modelled
three-valued: the key may be absent from the object (none), present with
undefined, present with null, or present with a string; the carry-over
object literals of the heading branches always create the shallower keys,
reading an absent key as undefined. -/

inductive JVal where
  | undefinedV
  | null
  | str (s : String)
deriving DecidableEq, Repr

structure Block where
  h1 : Option JVal := none
  h2 : Option JVal := none
  h3 : Option JVal := none
  h4 : Option JVal := none
  h5 : Option JVal := none
  h6 : Option JVal := none
  anchor : Option JVal := none
  p : Option (List String) := none
deriving DecidableEq, Repr

def Block.hGet (b : Block) : Nat → Option JVal
  | 1 => b.h1
  | 2 => b.h2
  | 3 => b.h3
  | 4 => b.h4
  | 5 => b.h5
  | 6 => b.h6
  | _ => none

/-- Object.keys(currentBlock).length > 0. -/
def Block.nonEmpty (b : Block) : Bool :=
  b.h1.isSome || b.h2.isSome || b.h3.isSome || b.h4.isSome || b.h5.isSome ||
    b.h6.isSome || b.anchor.isSome || b.p.isSome

/-- Reading a possibly-absent key in the carry-over literals: an absent
key reads as undefined. -/
def carryVal (v : Option JVal) : JVal := v.getD .undefinedV

/-- The content elements walked in document order (full_page.ts:26):
headings H1-H6 with their cleaned text and id attribute, and the
paragraph-like P, TD, LI, SPAN elements with their cleaned text. -/
inductive Elem where
  | heading (level : Nat) (text : String) (id : String)
  | textElem (text : String)
deriving DecidableEq, Repr

/-- The fresh block object created when a heading of the given level
pushes the current block (full_page.ts:34, 46, 57-60, 70-74, 83-88,
96-102): shallower heading keys are copied over, deeper ones are not. -/
def headingCarry (cur : Block) : Nat → Block
  | 1 => {}
  | 2 => { h1 := some (carryVal cur.h1) }
  | 3 => { h1 := some (carryVal cur.h1), h2 := some (carryVal cur.h2) }
  | 4 => { h1 := some (carryVal cur.h1), h2 := some (carryVal cur.h2),
           h3 := some (carryVal cur.h3) }
  | 5 => { h1 := some (carryVal cur.h1), h2 := some (carryVal cur.h2),
           h3 := some (carryVal cur.h3), h4 := some (carryVal cur.h4) }
  | 6 => { h1 := some (carryVal cur.h1), h2 := some (carryVal cur.h2),
           h3 := some (carryVal cur.h3), h4 := some (carryVal cur.h4),
           h5 := some (carryVal cur.h5) }
  | _ => cur

/-- The assignments each heading branch performs on the (possibly fresh)
current block: its own level gets the text, anchor gets the fragment or
null, and every deeper level is reset to null. -/
def headingSet (cur : Block) (level : Nat) (text : String) (id : String) :
    Block :=
  let anchor := some (if id ≠ "" then JVal.str ("#" ++ id) else JVal.null)
  match level with
  | 1 => { cur with h1 := some (.str text), anchor := anchor,
                    h2 := some .null, h3 := some .null, h4 := some .null,
                    h5 := some .null, h6 := some .null }
  | 2 => { cur with h2 := some (.str text), anchor := anchor,
                    h3 := some .null, h4 := some .null, h5 := some .null,
                    h6 := some .null }
  | 3 => { cur with h3 := some (.str text), anchor := anchor,
                    h4 := some .null, h5 := some .null, h6 := some .null }
  | 4 => { cur with h4 := some (.str text), anchor := anchor,
                    h5 := some .null, h6 := some .null }
  | 5 => { cur with h5 := some (.str text), anchor := anchor,
                    h6 := some .null }
  | 6 => { cur with h6 := some (.str text), anchor := anchor }
  | _ => cur

structure FPState where
  blocks : List Block
  currentBlock : Block
deriving DecidableEq, Repr

/-- One iteration of the element loop (full_page.ts:26-118).  A heading
pushes the non-empty current block and starts a fresh one from the carry;
a paragraph-like element ensures the p key exists and appends non-empty,
not-yet-present text. -/
def fullPageStep (st : FPState) : Elem → FPState
  | .heading level text id =>
      if 1 ≤ level ∧ level ≤ 6 then
        if st.currentBlock.nonEmpty then
          { blocks := st.blocks ++ [st.currentBlock],
            currentBlock := headingSet (headingCarry st.currentBlock level)
              level text id }
        else
          { st with currentBlock := headingSet st.currentBlock level text id }
      else st
  | .textElem text =>
      let pList := st.currentBlock.p.getD []
      let pList := if text ≠ "" ∧ text ∉ pList then pList ++ [text] else pList
      { st with currentBlock := { st.currentBlock with p := some pList } }

/-- The loop over all elements followed by the final flush of a non-empty
current block (full_page.ts:120-123). -/
def fullPageBlocksRaw (es : List Elem) : List Block :=
  let st := es.foldl fullPageStep { blocks := [], currentBlock := {} }
  if st.currentBlock.nonEmpty then st.blocks ++ [st.currentBlock] else st.blocks

/-- A block of the returned document, after the p list is joined to a
newline-separated string (full_page.ts:126-134); heading fields are
untouched by that conversion. -/
structure OutBlock where
  h1 : Option JVal := none
  h2 : Option JVal := none
  h3 : Option JVal := none
  h4 : Option JVal := none
  h5 : Option JVal := none
  h6 : Option JVal := none
  anchor : Option JVal := none
  p : Option String := none
deriving DecidableEq, Repr

def OutBlock.hGet (b : OutBlock) : Nat → Option JVal
  | 1 => b.h1
  | 2 => b.h2
  | 3 => b.h3
  | 4 => b.h4
  | 5 => b.h5
  | 6 => b.h6
  | _ => none

def joinBlock (b : Block) : OutBlock :=
  { h1 := b.h1, h2 := b.h2, h3 := b.h3, h4 := b.h4, h5 := b.h5, h6 := b.h6,
    anchor := b.anchor,
    p := b.p.map (fun l => String.intercalate "\n" l) }

/-- The blocks field of the document returned by processFullPage. -/
def processFullPageBlocks (es : List Elem) : List OutBlock :=
  (fullPageBlocksRaw es).map joinBlock

/-! ### Instrumented run recording, for each produced block, the level of
the heading that opened it (0 for the block started before any heading).
This only adds bookkeeping; the agreement lemma below proves the
projection equals the faithful run. -/

structure FPAnnState where
  blocks : List (Block × Nat)
  currentBlock : Block
  curOpen : Nat
deriving DecidableEq, Repr

def fullPageStepAnn (st : FPAnnState) : Elem → FPAnnState
  | .heading level text id =>
      if 1 ≤ level ∧ level ≤ 6 then
        if st.currentBlock.nonEmpty then
          { blocks := st.blocks ++ [(st.currentBlock, st.curOpen)],
            currentBlock := headingSet (headingCarry st.currentBlock level)
              level text id,
            curOpen := level }
        else
          { st with
            currentBlock := headingSet st.currentBlock level text id,
            curOpen := level }
      else st
  | .textElem text =>
      let pList := st.currentBlock.p.getD []
      let pList := if text ≠ "" ∧ text ∉ pList then pList ++ [text] else pList
      { st with currentBlock := { st.currentBlock with p := some pList } }

def annRun (es : List Elem) : FPAnnState :=
  es.foldl fullPageStepAnn { blocks := [], currentBlock := {}, curOpen := 0 }

def annBlocks (es : List Elem) : List (Block × Nat) :=
  let st := annRun es
  if st.currentBlock.nonEmpty then st.blocks ++ [(st.currentBlock, st.curOpen)]
  else st.blocks

/-- Default entry used with getD when indexing annotated block lists. -/
def annDflt : Block × Nat := ({}, 0)

def outDflt : OutBlock := {}

/-- The relation between a block and the next one, opened by a heading of
level next.2: shallower heading fields are carried over by value, the
opening level holds the heading text, deeper levels are reset to null. -/
def chainStep (prev next : Block × Nat) : Prop :=
  1 ≤ next.2 ∧ next.2 ≤ 6 ∧
  (∀ k, 1 ≤ k → k < next.2 →
      next.1.hGet k = some (carryVal (prev.1.hGet k))) ∧
  (∃ s, next.1.hGet next.2 = some (.str s)) ∧
  (∀ k, next.2 < k → k ≤ 6 → next.1.hGet k = some JVal.null)

/-! ## Block splitting (block_split.ts:5-50) and the per-crawl id supply

uuidv4 is modelled by a monotone counter handed through the crawl: each
draw returns the current value and advances it; distinct draws give
distinct ids. -/

structure PageDoc where
  uid : Option Nat
  blocks : List OutBlock
deriving DecidableEq, Repr

structure BlockDocument where
  uid : Nat
  parent_document_id : Nat
  page_block : Nat
  block : OutBlock
deriving DecidableEq, Repr

inductive PublishUnit where
  | page (d : PageDoc)
  | child (b : BlockDocument)
deriving DecidableEq, Repr

/-- block_split.ts:5-50: without the feature the document itself is the
single unit; with it, a parent id (document.uid, or a fresh uuid if that
is missing) is shared by all children, each child gets a fresh uuid and
page_block is the index at which it is pushed. -/
def processBlockSplit (activated : Bool) (doc : PageDoc) (ctr : Nat) :
    List PublishUnit × Nat :=
  if !activated then ([.page doc], ctr)
  else
    let pd : Nat × Nat :=
      match doc.uid with
      | some u => (u, ctr)
      | none => (ctr, ctr + 1)
    let children := doc.blocks.enum.map (fun ib =>
      PublishUnit.child
        { uid := pd.2 + ib.1, parent_document_id := pd.1,
          page_block := ib.1, block := ib.2 })
    (children, pd.2 + doc.blocks.length)

/-- full_page.ts:136-143: the returned document always carries a fresh
uuid. -/
def processFullPageDoc (es : List Elem) (ctr : Nat) : PageDoc × Nat :=
  ({ uid := some ctr, blocks := processFullPageBlocks es }, ctr + 1)

/-- One page through base extraction then block splitting. -/
def pipelinePage (activated : Bool) (es : List Elem) (ctr : Nat) :
    (PageDoc × List PublishUnit) × Nat :=
  let pc := processFullPageDoc es ctr
  let uc := processBlockSplit activated pc.1 pc.2
  ((pc.1, uc.1), uc.2)

/-- A whole crawl: each extracted page runs the pipeline in turn, the id
supply threading through. -/
def crawlRun (activated : Bool) (pages : List (List Elem)) (ctr : Nat) :
    List (PageDoc × List PublishUnit) × Nat :=
  match pages with
  | [] => ([], ctr)
  | es :: rest =>
      let pc := pipelinePage activated es ctr
      let rc := crawlRun activated rest pc.2
      (pc.1 :: rc.1, rc.2)

def unitParentIds (us : List PublishUnit) : List Nat :=
  us.foldr (fun u acc =>
    match u with
    | .page _ => acc
    | .child b => b.parent_document_id :: acc) []

def unitChildDocs (us : List PublishUnit) : List BlockDocument :=
  us.foldr (fun u acc =>
    match u with
    | .page _ => acc
    | .child b => b :: acc) []

/-- All parent ids appearing across a crawl, deduplicated. -/
def crawlParentIds (out : List (PageDoc × List PublishUnit)) : List Nat :=
  (out.flatMap (fun pu => unitParentIds pu.2)).dedup

/-- The ids of the extracted page documents of a crawl. -/
def crawlPageIds (out : List (PageDoc × List PublishUnit)) : List Nat :=
  out.flatMap (fun pu => pu.1.uid.toList)

def crawlChildren (out : List (PageDoc × List PublishUnit)) :
    List BlockDocument :=
  out.flatMap (fun pu => unitChildDocs pu.2)

/-! # Theorems -/

/-- C4 counterexample: with a custom primary key different from uid, add
mutates the document handed to it - the page-authored uid field is
deleted before the document is queued, so the queued document differs
from the input. -/
theorem sender_add_mutates_uid_counterexample :
    (senderAdd { batch_size := 10, primary_key := some "docId" } senderInit
        { uid := some "page-1", fields := [("title", "T")] }).queue =
      [{ uid := none, fields := [("title", "T")] }] ∧
    ({ uid := none, fields := [("title", "T")] } : Doc) ≠
      { uid := some "page-1", fields := [("title", "T")] } := by
  decide

/-- C4 (amended): add queues exactly one transformed copy of the
document; all fields other than uid are left unchanged; with no custom
primary key (or primary key uid) the document is queued unchanged; with a
custom primary key different from uid, the uid field is removed - and
nothing else changes.  The Sender adds no fields of its own. -/
theorem sender_add_frame (cfg : SenderConfig) (s : SenderState) (d : Doc)
    (hb : cfg.batch_size ≠ 0) :
    (senderAdd cfg s d).queue = s.queue ++ [applyPrimaryKey cfg d] ∧
    (applyPrimaryKey cfg d).fields = d.fields ∧
    ((cfg.primary_key = none ∨ cfg.primary_key = some "uid") →
        applyPrimaryKey cfg d = d) ∧
    (∀ pk, cfg.primary_key = some pk → pk ≠ "uid" →
        applyPrimaryKey cfg d = { d with uid := none }) := by
  refine ⟨?_, ?_, ?_, ?_⟩
  · simp only [senderAdd, if_pos hb]
    split <;> rfl
  · cases hpk : cfg.primary_key with
    | none => simp [applyPrimaryKey, hpk]
    | some pk =>
        by_cases h : pk = "uid" <;> simp [applyPrimaryKey, hpk, h]
  · rintro (h | h) <;> simp [applyPrimaryKey, h]
  · intro pk hpk hne
    simp [applyPrimaryKey, hpk, hne]

theorem sender_add_frame_witness :
    (({ batch_size := 5, primary_key := some "uid" } : SenderConfig).batch_size ≠ 0) ∧
    ((senderAdd { batch_size := 5, primary_key := some "uid" } senderInit
        { uid := some "u", fields := [("a", "b")] }).queue =
      senderInit.queue ++
        [applyPrimaryKey { batch_size := 5, primary_key := some "uid" }
          { uid := some "u", fields := [("a", "b")] }] ∧
    (applyPrimaryKey { batch_size := 5, primary_key := some "uid" }
        { uid := some "u", fields := [("a", "b")] }).fields =
      ({ uid := some "u", fields := [("a", "b")] } : Doc).fields ∧
    ((({ batch_size := 5, primary_key := some "uid" } : SenderConfig).primary_key = none ∨
        ({ batch_size := 5, primary_key := some "uid" } : SenderConfig).primary_key = some "uid") →
        applyPrimaryKey { batch_size := 5, primary_key := some "uid" }
          { uid := some "u", fields := [("a", "b")] } =
          { uid := some "u", fields := [("a", "b")] }) ∧
    (∀ pk, ({ batch_size := 5, primary_key := some "uid" } : SenderConfig).primary_key = some pk →
        pk ≠ "uid" →
        applyPrimaryKey { batch_size := 5, primary_key := some "uid" }
          { uid := some "u", fields := [("a", "b")] } =
          { uid := none, fields := [("a", "b")] })) :=
  ⟨by decide,
   sender_add_frame { batch_size := 5, primary_key := some "uid" } senderInit
     { uid := some "u", fields := [("a", "b")] } (by decide)⟩

/-- C5: at Finish, a staging index distinct from the live index is
swapped into the live name and then deleted when it holds at least one
document; with zero documents it is deleted without swapping, leaving the
live index untouched. -/
theorem staging_swap_or_delete (live sdocs : List Doc) (init stag : String)
    (hne : stag ≠ init) :
    (sdocs ≠ [] →
        finishIndexes [(init, live), (stag, sdocs)] init stag =
          [(init, sdocs)]) ∧
    (sdocs = [] →
        finishIndexes [(init, live), (stag, sdocs)] init stag =
          [(init, live)]) := by
  have hbeq : (init == stag) = false := by
    simp [hne.symm]
  have hbeq2 : (init == init) = true := by simp
  have hbeq3 : (stag == stag) = true := by simp
  constructor
  · intro hs
    have hlen : 0 < sdocs.length := List.length_pos.mpr hs
    simp [finishIndexes, lookupIndex, deleteIndex, swapIndexes,
      List.find?, hbeq, hbeq2, hbeq3, hne, hlen, hne.symm]
  · intro hs
    subst hs
    simp [finishIndexes, lookupIndex, deleteIndex, swapIndexes,
      List.find?, hbeq, hbeq2, hbeq3, hne, hne.symm]

theorem staging_swap_or_delete_witness :
    ("idx_crawler_tmp" ≠ "idx") ∧
    (([mkDoc 1] ≠ ([] : List Doc) →
        finishIndexes [("idx", [mkDoc 9]), ("idx_crawler_tmp", [mkDoc 1])]
          "idx" "idx_crawler_tmp" = [("idx", [mkDoc 1])]) ∧
    (([mkDoc 1] : List Doc) = [] →
        finishIndexes [("idx", [mkDoc 9]), ("idx_crawler_tmp", [mkDoc 1])]
          "idx" "idx_crawler_tmp" = [("idx", [mkDoc 9])])) :=
  ⟨by decide,
   staging_swap_or_delete [mkDoc 9] [mkDoc 1] "idx" "idx_crawler_tmp" (by decide)⟩

/-- C6 counterexample: when the external AI call of the extraction step
fails, the step does NOT return the input document unchanged - it returns
the document with an Extraction failed marker recorded under
ai_extraction. -/
theorem ai_extraction_failure_mutates_counterexample :
    processAIExtraction true true (some "Extract the price") .failed
        (fun s => some s)
        { base := [("title", "T")], ai_extraction := none, ai_summary := none } ≠
      { base := [("title", "T")], ai_extraction := none, ai_summary := none } := by
  decide

/-- C6 (amended): a step-local failure never aborts the pipeline and
never touches fields the step does not own: a failed AI-summary call
returns the input document unchanged; a failed AI-extraction call (or an
unparseable response) leaves every other field unchanged but, instead of
returning the input unchanged, records an error marker under
ai_extraction. -/
theorem pipeline_step_failure_containment
    (activated apiKey : Bool) (prompt : Option String) (p content : String)
    (parse : String → Option String) (doc : AIDoc)
    (hp : prompt = some p) :
    processAISummary activated apiKey .failed doc = doc ∧
    (processAIExtraction activated apiKey prompt .failed parse doc).base =
      doc.base ∧
    (processAIExtraction activated apiKey prompt .failed parse doc).ai_summary =
      doc.ai_summary ∧
    (activated = true → apiKey = true →
        processAIExtraction activated apiKey prompt .failed parse doc =
          { doc with ai_extraction := some [(p, "Extraction failed")] }) ∧
    (activated = true → apiKey = true → parse content = none →
        processAIExtraction activated apiKey prompt (.ok content) parse doc =
          { doc with ai_extraction := some [(p, "Failed to parse result")] }) := by
  subst hp
  refine ⟨?_, ?_, ?_, ?_, ?_⟩
  · cases activated <;> cases apiKey <;> simp [processAISummary]
  · cases activated <;> cases apiKey <;> simp [processAIExtraction]
  · cases activated <;> cases apiKey <;> simp [processAIExtraction]
  · intro ha hk
    subst ha; subst hk
    simp [processAIExtraction]
  · intro ha hk hparse
    subst ha; subst hk
    simp [processAIExtraction, hparse]

theorem pipeline_step_failure_containment_witness :
    ((some "Extract the price" : Option String) = some "Extract the price") ∧
    (processAISummary true true .failed
        { base := [], ai_extraction := none, ai_summary := none } =
      { base := [], ai_extraction := none, ai_summary := none } ∧
    (processAIExtraction true true (some "Extract the price") .failed
        (fun _ => none)
        { base := [], ai_extraction := none, ai_summary := none }).base =
      ({ base := [], ai_extraction := none, ai_summary := none } : AIDoc).base ∧
    (processAIExtraction true true (some "Extract the price") .failed
        (fun _ => none)
        { base := [], ai_extraction := none, ai_summary := none }).ai_summary =
      ({ base := [], ai_extraction := none, ai_summary := none } : AIDoc).ai_summary ∧
    (true = true → true = true →
        processAIExtraction true true (some "Extract the price") .failed
          (fun _ => none)
          { base := [], ai_extraction := none, ai_summary := none } =
        { base := [],
          ai_extraction := some [("Extract the price", "Extraction failed")],
          ai_summary := none }) ∧
    (true = true → true = true → (fun _ => none : String → Option String) "x" = none →
        processAIExtraction true true (some "Extract the price") (.ok "x")
          (fun _ => none)
          { base := [], ai_extraction := none, ai_summary := none } =
        { base := [],
          ai_extraction := some [("Extract the price", "Failed to parse result")],
          ai_summary := none })) :=
  ⟨rfl,
   pipeline_step_failure_containment true true (some "Extract the price")
     "Extract the price" "x" (fun _ => none)
     { base := [], ai_extraction := none, ai_summary := none } rfl⟩

/-- C8 counterexample: an extraction-eligible page whose body text
contains the phrase page not found (case-insensitive), with no custom
not-found selectors, is classified soft-404 and handled with zero
documents and no counter increment - but its outbound links are NOT
enqueued: the handler returns before the enqueueLinks call. -/
theorem soft404_links_not_enqueued_counterexample :
    is404Page none
        { selectorMatches := [], bodyText := "Sorry, Page Not Found." } = true ∧
    handlePage (fun _ _ => true)
        { start_urls := ["https://x.test"], urls_to_exclude := none,
          urls_to_index := none, urls_to_not_index := none }
        none true "https://x.test/gone"
        { selectorMatches := [], bodyText := "Sorry, Page Not Found." } =
      { crawledIncrement := 1, indexedIncrement := 0, scraped := false,
        linksEnqueued := false } := by
  decide

/-- C8 (amended): an extraction-eligible page whose body text contains
the phrase page not found (case-insensitive), with no custom not-found
selectors configured, is classified soft-404: the extracted-pages counter
is not incremented and zero documents are emitted, and the handler
returns early, so its outbound links are not enqueued either. -/
theorem soft404_page_outcome (m : String → String → Bool)
    (c : CrawlerUrlConfig) (nfs : Option (List String)) (url : String)
    (page : ParsedPage)
    (helig : extractionEligible m c url = true)
    (hsel : nfs = none ∨ nfs = some [])
    (htext : strIncludes (lowerStr page.bodyText) "page not found" = true) :
    is404Page nfs page = true ∧
    handlePage m c nfs true url page =
      { crawledIncrement := 1, indexedIncrement := 0, scraped := false,
        linksEnqueued := false } := by
  have hmem : "page not found" ∈ commonErrorTexts := by decide
  have hany :
      commonErrorTexts.any (fun t => strIncludes (lowerStr page.bodyText) t)
        = true :=
    List.any_eq_true.mpr ⟨"page not found", hmem, htext⟩
  have h404 : is404Page nfs page = true := by
    rcases hsel with h | h <;> simp [is404Page, h, hany]
  exact ⟨h404, by simp [handlePage, helig, h404]⟩

theorem soft404_page_outcome_witness :
    (extractionEligible (fun _ _ => true)
        { start_urls := ["https://x.test"], urls_to_exclude := none,
          urls_to_index := none, urls_to_not_index := none }
        "https://x.test/gone" = true) ∧
    ((none : Option (List String)) = none ∨
        (none : Option (List String)) = some []) ∧
    (strIncludes (lowerStr "This Page could NOT be FOUND, sorry")
        "page not found" = false) ∧
    (strIncludes
        (lowerStr
          ({ selectorMatches := [], bodyText := "Oops - Page Not Found!" } :
            ParsedPage).bodyText)
        "page not found" = true) ∧
    (is404Page none
        { selectorMatches := [], bodyText := "Oops - Page Not Found!" } = true ∧
    handlePage (fun _ _ => true)
        { start_urls := ["https://x.test"], urls_to_exclude := none,
          urls_to_index := none, urls_to_not_index := none }
        none true "https://x.test/gone"
        { selectorMatches := [], bodyText := "Oops - Page Not Found!" } =
      { crawledIncrement := 1, indexedIncrement := 0, scraped := false,
        linksEnqueued := false }) :=
  ⟨by decide, Or.inl rfl, by decide, by decide,
   soft404_page_outcome (fun _ _ => true)
     { start_urls := ["https://x.test"], urls_to_exclude := none,
       urls_to_index := none, urls_to_not_index := none }
     none "https://x.test/gone"
     { selectorMatches := [], bodyText := "Oops - Page Not Found!" }
     (by decide) (Or.inl rfl) (by decide)⟩

/-- Helper: the glob expansion in closed form - one pair per configured
url. -/
theorem generate_globs_eq (us : List String) :
    generate_globs us = us.flatMap (fun v => [v, wildcardOf v]) := by
  unfold generate_globs wildcardOf
  congr 1
  funext v
  by_cases h : strEndsWith v "/" <;> simp [h]

/-- Helper: the glob list has exactly two entries per configured url. -/
theorem generate_globs_length (us : List String) :
    (generate_globs us).length = 2 * us.length := by
  induction us with
  | nil => rfl
  | cons a t ih =>
      rw [generate_globs_eq] at ih ⊢
      simp only [List.flatMap_cons, List.length_append, List.length_cons,
        List.length_nil, List.length_cons] at ih ⊢
      omega

/-- C7: each configured URL is expanded into exactly two glob patterns -
the URL itself plus its recursive wildcard form (url ++ ** when the URL
already ends in a slash, url ++ /** otherwise) - and a target URL is
classified eligible iff it matches at least one pattern generated from
the positive list and none generated from the negative list; hence a URL
matching an exclude pattern is never extraction- or traversal-eligible,
even if it also matches an include pattern. -/
theorem url_glob_classification (m : String → String → Bool)
    (c : CrawlerUrlConfig) (url : String) (us : List String) (u : String)
    (hu : u ∈ us) :
    (generate_globs us).length = 2 * us.length ∧
    u ∈ generate_globs us ∧
    wildcardOf u ∈ generate_globs us ∧
    generate_globs us = us.flatMap (fun v => [v, wildcardOf v]) ∧
    (extractionEligible m c url = true ↔
      ((∃ g ∈ indexedGlobs c, m url g = true) ∧
        ∀ g ∈ excludedIndexedGlobs c, m url g = false)) ∧
    (traversalEligible m c url = true ↔
      ((∃ g ∈ crawledGlobs c, m url g = true) ∧
        ∀ g ∈ excludedCrawledGlobs c, m url g = false)) ∧
    ((∃ g ∈ excludedIndexedGlobs c, m url g = true) →
      extractionEligible m c url = false) ∧
    ((∃ g ∈ excludedCrawledGlobs c, m url g = true) →
      traversalEligible m c url = false) := by
  refine ⟨generate_globs_length us, ?_, ?_, generate_globs_eq us, ?_, ?_, ?_, ?_⟩
  · rw [generate_globs_eq]
    exact List.mem_flatMap.mpr ⟨u, hu, by simp⟩
  · rw [generate_globs_eq]
    exact List.mem_flatMap.mpr ⟨u, hu, by simp⟩
  · simp only [extractionEligible, match_globs, Bool.and_eq_true,
      Bool.not_eq_true', List.any_eq_true, List.any_eq_false,
      Bool.not_eq_true]
  · simp only [traversalEligible, match_globs, Bool.and_eq_true,
      Bool.not_eq_true', List.any_eq_true, List.any_eq_false,
      Bool.not_eq_true]
  · rintro ⟨g, hg, hm⟩
    have hx : match_globs m url (excludedIndexedGlobs c) = true :=
      List.any_eq_true.mpr ⟨g, hg, hm⟩
    simp [extractionEligible, hx]
  · rintro ⟨g, hg, hm⟩
    have hx : match_globs m url (excludedCrawledGlobs c) = true :=
      List.any_eq_true.mpr ⟨g, hg, hm⟩
    simp [traversalEligible, hx]

theorem url_glob_classification_witness :
    ("https://x.test/" ∈ ["https://x.test/"]) ∧
    ((generate_globs ["https://x.test/"]).length = 2 * (1 : Nat) ∧
    "https://x.test/" ∈ generate_globs ["https://x.test/"] ∧
    wildcardOf "https://x.test/" ∈ generate_globs ["https://x.test/"] ∧
    generate_globs ["https://x.test/"] =
      (["https://x.test/"] : List String).flatMap
        (fun v => [v, wildcardOf v]) ∧
    (extractionEligible (fun a b => a == b)
        { start_urls := ["https://x.test/"], urls_to_exclude := none,
          urls_to_index := none, urls_to_not_index := none }
        "https://x.test/" = true ↔
      ((∃ g ∈ indexedGlobs
          { start_urls := ["https://x.test/"], urls_to_exclude := none,
            urls_to_index := none, urls_to_not_index := none },
          (fun a b => a == b) "https://x.test/" g = true) ∧
        ∀ g ∈ excludedIndexedGlobs
          { start_urls := ["https://x.test/"], urls_to_exclude := none,
            urls_to_index := none, urls_to_not_index := none },
          (fun a b => a == b) "https://x.test/" g = false)) ∧
    (traversalEligible (fun a b => a == b)
        { start_urls := ["https://x.test/"], urls_to_exclude := none,
          urls_to_index := none, urls_to_not_index := none }
        "https://x.test/" = true ↔
      ((∃ g ∈ crawledGlobs
          { start_urls := ["https://x.test/"], urls_to_exclude := none,
            urls_to_index := none, urls_to_not_index := none },
          (fun a b => a == b) "https://x.test/" g = true) ∧
        ∀ g ∈ excludedCrawledGlobs
          { start_urls := ["https://x.test/"], urls_to_exclude := none,
            urls_to_index := none, urls_to_not_index := none },
          (fun a b => a == b) "https://x.test/" g = false)) ∧
    ((∃ g ∈ excludedIndexedGlobs
        { start_urls := ["https://x.test/"], urls_to_exclude := none,
          urls_to_index := none, urls_to_not_index := none },
        (fun a b => a == b) "https://x.test/" g = true) →
      extractionEligible (fun a b => a == b)
        { start_urls := ["https://x.test/"], urls_to_exclude := none,
          urls_to_index := none, urls_to_not_index := none }
        "https://x.test/" = false) ∧
    ((∃ g ∈ excludedCrawledGlobs
        { start_urls := ["https://x.test/"], urls_to_exclude := none,
          urls_to_index := none, urls_to_not_index := none },
        (fun a b => a == b) "https://x.test/" g = true) →
      traversalEligible (fun a b => a == b)
        { start_urls := ["https://x.test/"], urls_to_exclude := none,
          urls_to_index := none, urls_to_not_index := none }
        "https://x.test/" = false)) :=
  ⟨by decide,
   url_glob_classification (fun a b => a == b)
     { start_urls := ["https://x.test/"], urls_to_exclude := none,
       urls_to_index := none, urls_to_not_index := none }
     "https://x.test/" ["https://x.test/"] "https://x.test/" (by decide)⟩

/-- C2 counterexample: a threshold-triggered flush that keeps failing is
retried with backoff and settles to the dedicated SENDER_BATCH_FAILED
error after the budget (3 retries, 4 attempts) - but add attaches a
catch handler that only logs, so nothing reaches the crawl: the
exhausted flush is silently ignored rather than fatal. -/
theorem flush_exhaustion_not_fatal_counterexample :
    (thresholdFlushObs (fun _ => true) 5).result = .fatal 5 4 ∧
    (thresholdFlushObs (fun _ => true) 5).delays = [1000, 2000, 4000] ∧
    (thresholdFlushObs (fun _ => true) 5).loggedError = some (.fatal 5 4) ∧
    (thresholdFlushObs (fun _ => true) 5).thrownToCaller = none := by
  decide

/-- C2 (amended): a failing background flush is retried with exponential
backoff - the i-th sleep is min (BASE_DELAY * 2 ^ i) MAX_DELAY (i from
0) and at most MAX_ATTEMPTS sleeps happen; when every attempt fails the
flush settles to the dedicated error carrying the queue size and the
last underlying error, which add catches and logs, never failing the
crawl; the synchronous Finish-triggered flush, by contrast, is not
retried and its failure propagates. -/
theorem flush_retry_backoff (fail : Nat → Bool) (q : Nat) (s : SenderState)
    (hs : s.queue ≠ []) :
    (batchSend fail q).2.length ≤ RETRY_MAX_ATTEMPTS ∧
    (batchSend fail q).2 =
      (List.range (batchSend fail q).2.length).map
        (fun i => min (RETRY_BASE_DELAY * 2 ^ i) RETRY_MAX_DELAY) ∧
    ((∀ n, 1 ≤ n → n ≤ RETRY_MAX_ATTEMPTS + 1 → fail n = true) →
        (batchSend fail q).1 = .fatal q (RETRY_MAX_ATTEMPTS + 1) ∧
        (thresholdFlushObs fail q).loggedError =
          some (.fatal q (RETRY_MAX_ATTEMPTS + 1))) ∧
    (thresholdFlushObs fail q).thrownToCaller = none ∧
    batchSendSync true s = .error s.queue.length := by
  refine ⟨?_, ?_, ?_, ?_, ?_⟩
  · cases h1 : fail 1 <;> cases h2 : fail 2 <;> cases h3 : fail 3 <;>
      cases h4 : fail 4 <;>
      simp [batchSend, batchSendGo, RETRY_MAX_ATTEMPTS, h1, h2, h3, h4]
  · cases h1 : fail 1 <;> cases h2 : fail 2 <;> cases h3 : fail 3 <;>
      cases h4 : fail 4 <;>
      simp [batchSend, batchSendGo, RETRY_MAX_ATTEMPTS, RETRY_BASE_DELAY,
        RETRY_MAX_DELAY, h1, h2, h3, h4, List.range_succ]
  · intro hall
    have h1 := hall 1 (by decide) (by decide)
    have h2 := hall 2 (by decide) (by decide)
    have h3 := hall 3 (by decide) (by decide)
    have h4 := hall 4 (by decide) (by decide)
    have hres : (batchSend fail q).1 = .fatal q (RETRY_MAX_ATTEMPTS + 1) := by
      simp [batchSend, batchSendGo, RETRY_MAX_ATTEMPTS, h1, h2, h3, h4]
    exact ⟨hres, by simp [thresholdFlushObs, hres]⟩
  · cases hres : (batchSend fail q).1 <;> simp [thresholdFlushObs, hres]
  · simp [batchSendSync, hs]

theorem flush_retry_backoff_witness :
    (({ senderInit with queue := [mkDoc 1] } : SenderState).queue ≠ []) ∧
    ((batchSend (fun _ => true) 5).2.length ≤ RETRY_MAX_ATTEMPTS ∧
    (batchSend (fun _ => true) 5).2 =
      (List.range (batchSend (fun _ => true) 5).2.length).map
        (fun i => min (RETRY_BASE_DELAY * 2 ^ i) RETRY_MAX_DELAY) ∧
    ((∀ n, 1 ≤ n → n ≤ RETRY_MAX_ATTEMPTS + 1 → (fun _ => true : Nat → Bool) n = true) →
        (batchSend (fun _ => true) 5).1 = .fatal 5 (RETRY_MAX_ATTEMPTS + 1) ∧
        (thresholdFlushObs (fun _ => true) 5).loggedError =
          some (.fatal 5 (RETRY_MAX_ATTEMPTS + 1))) ∧
    (thresholdFlushObs (fun _ => true) 5).thrownToCaller = none ∧
    batchSendSync true { senderInit with queue := [mkDoc 1] } =
      .error ({ senderInit with queue := [mkDoc 1] } : SenderState).queue.length) :=
  ⟨by decide,
   flush_retry_backoff (fun _ => true) 5
     { senderInit with queue := [mkDoc 1] } (by decide)⟩

/-- C3 (code bug): with batch size 2 and five documents added, the
synchronous final flush of the one remaining document adds the remaining
queue length to nb_documents_sent, although every document was already
counted once when it was added - so the completed webhook reports 6
documents for a crawl whose pipeline called add exactly 5 times. -/
theorem completed_count_double_counts :
    (senderRunPrompt batchTwoConfig
        [mkDoc 1, mkDoc 2, mkDoc 3, mkDoc 4, mkDoc 5]).nb_documents_sent = 5 ∧
    (senderRunPrompt batchTwoConfig
        [mkDoc 1, mkDoc 2, mkDoc 3, mkDoc 4, mkDoc 5]).queue.length = 1 ∧
    finishCompletedCount false
        (senderRunPrompt batchTwoConfig
          [mkDoc 1, mkDoc 2, mkDoc 3, mkDoc 4, mkDoc 5]) = some 6 ∧
    (6 : Nat) ≠ 5 := by
  decide

/-- C1 counterexample: nothing in add awaits the flush it triggers, and
the queue is cleared only when the flush's index write resolves; under
the schedule where the later adds run before that resolution (they run
back to back, while the write is an HTTP round trip), five adds with
batch size 2 trigger four threshold flushes, not two, and the first
document is claimed by the payloads of both the first and the second
flush. -/
theorem threshold_flush_double_claim_counterexample :
    (senderRun batchTwoConfig
        [.add (mkDoc 1), .add (mkDoc 2), .add (mkDoc 3), .add (mkDoc 4),
         .add (mkDoc 5)]).flushLog.length = 4 ∧
    (4 : Nat) ≠ 2 ∧
    mkDoc 1 ∈ (senderRun batchTwoConfig
        [.add (mkDoc 1), .add (mkDoc 2), .add (mkDoc 3), .add (mkDoc 4),
         .add (mkDoc 5)]).flushLog.getD 0 [] ∧
    mkDoc 1 ∈ (senderRun batchTwoConfig
        [.add (mkDoc 1), .add (mkDoc 2), .add (mkDoc 3), .add (mkDoc 4),
         .add (mkDoc 5)]).flushLog.getD 1 [] := by
  decide

/-- Helper: the two-chunks and the remainder reassemble the input. -/
theorem pairChunks_join : ∀ docs : List Doc,
    (pairChunks docs).flatten ++ pairRest docs = docs
  | [] => rfl
  | [_] => rfl
  | a :: b :: t => by
      simp only [pairChunks, pairRest, List.flatten, List.cons_append,
        List.append_assoc, List.nil_append]
      simp [pairChunks_join t]

/-- Helper: under the benign schedule with batch size 2, starting from a
state with an empty queue and no in-flight write, the flush payloads are
the successive pairs and the queue holds the remainder. -/
theorem promptTwo_go : ∀ (docs : List Doc) (s : SenderState),
    s.queue = [] → s.inflight = [] →
    (docs.foldl (promptStep batchTwoConfig) s).flushLog =
        s.flushLog ++ pairChunks docs ∧
    (docs.foldl (promptStep batchTwoConfig) s).queue = pairRest docs ∧
    (docs.foldl (promptStep batchTwoConfig) s).inflight = []
  | [], s, hq, hin => by
      simp [pairChunks, pairRest, hq, hin]
  | [a], s, hq, hin => by
      simp [promptStep, senderAdd, senderResolveFlush, applyPrimaryKey,
        batchTwoConfig, pairChunks, pairRest, hq, hin]
  | a :: b :: t, s, hq, hin => by
      have e : promptStep batchTwoConfig (promptStep batchTwoConfig s a) b =
          { s with nb_documents_sent := s.nb_documents_sent + 1 + 1,
                   queue := [],
                   inflight := [],
                   flushLog := s.flushLog ++ [[a, b]],
                   pendingTasks := s.pendingTasks ++ [s.nextTask],
                   nextTask := s.nextTask + 1 } := by
        simp [promptStep, senderAdd, senderResolveFlush, applyPrimaryKey,
          batchTwoConfig, hq, hin]
      have hfold : (a :: b :: t).foldl (promptStep batchTwoConfig) s =
          t.foldl (promptStep batchTwoConfig)
            (promptStep batchTwoConfig (promptStep batchTwoConfig s a) b) := rfl
      obtain ⟨ih1, ih2, ih3⟩ :=
        promptTwo_go t
          { s with nb_documents_sent := s.nb_documents_sent + 1 + 1,
                   queue := [],
                   inflight := [],
                   flushLog := s.flushLog ++ [[a, b]],
                   pendingTasks := s.pendingTasks ++ [s.nextTask],
                   nextTask := s.nextTask + 1 } rfl rfl
      rw [hfold, e]
      exact ⟨by simpa [pairChunks, List.append_assoc] using ih1,
             by simpa [pairRest] using ih2, ih3⟩

/-- C1 (corrected): the queue is cleared only when a flush's index write
resolves, not synchronously at flush time.  Under the benign schedule in
which each triggered write resolves before the next Add, every Add that
brings the queue to the batch size of 2 triggers exactly one flush: the
flush payloads are the successive disjoint pairs, the remainder stays
queued for Finish, and no document is claimed by two flushes; with five
distinct documents that is exactly two threshold flushes (after the 2nd
and 4th adds) and one queued document. -/
theorem threshold_flush_prompt_schedule (docs : List Doc)
    (hnd : docs.Nodup) :
    (senderRunPrompt batchTwoConfig docs).flushLog = pairChunks docs ∧
    (senderRunPrompt batchTwoConfig docs).queue = pairRest docs ∧
    (senderRunPrompt batchTwoConfig docs).flushLog.flatten ++
        (senderRunPrompt batchTwoConfig docs).queue = docs ∧
    (senderRunPrompt batchTwoConfig docs).flushLog.flatten.Nodup := by
  obtain ⟨h1, h2, h3⟩ := promptTwo_go docs senderInit rfl rfl
  have hfl : (senderRunPrompt batchTwoConfig docs).flushLog = pairChunks docs := by
    simpa [senderRunPrompt, senderInit] using h1
  have hqu : (senderRunPrompt batchTwoConfig docs).queue = pairRest docs := by
    simpa [senderRunPrompt, senderInit] using h2
  have hre : (senderRunPrompt batchTwoConfig docs).flushLog.flatten ++
      (senderRunPrompt batchTwoConfig docs).queue = docs := by
    rw [hfl, hqu]; exact pairChunks_join docs
  refine ⟨hfl, hqu, hre, ?_⟩
  have : ((senderRunPrompt batchTwoConfig docs).flushLog.flatten ++
      (senderRunPrompt batchTwoConfig docs).queue).Nodup := by
    rw [hre]; exact hnd
  exact this.of_append_left

theorem threshold_flush_prompt_schedule_witness :
    ([mkDoc 1, mkDoc 2, mkDoc 3, mkDoc 4, mkDoc 5].Nodup) ∧
    ((senderRunPrompt batchTwoConfig
        [mkDoc 1, mkDoc 2, mkDoc 3, mkDoc 4, mkDoc 5]).flushLog =
      pairChunks [mkDoc 1, mkDoc 2, mkDoc 3, mkDoc 4, mkDoc 5] ∧
    (senderRunPrompt batchTwoConfig
        [mkDoc 1, mkDoc 2, mkDoc 3, mkDoc 4, mkDoc 5]).queue =
      pairRest [mkDoc 1, mkDoc 2, mkDoc 3, mkDoc 4, mkDoc 5] ∧
    (senderRunPrompt batchTwoConfig
        [mkDoc 1, mkDoc 2, mkDoc 3, mkDoc 4, mkDoc 5]).flushLog.flatten ++
      (senderRunPrompt batchTwoConfig
        [mkDoc 1, mkDoc 2, mkDoc 3, mkDoc 4, mkDoc 5]).queue =
      [mkDoc 1, mkDoc 2, mkDoc 3, mkDoc 4, mkDoc 5] ∧
    (senderRunPrompt batchTwoConfig
        [mkDoc 1, mkDoc 2, mkDoc 3, mkDoc 4, mkDoc 5]).flushLog.flatten.Nodup) :=
  ⟨by decide,
   threshold_flush_prompt_schedule
     [mkDoc 1, mkDoc 2, mkDoc 3, mkDoc 4, mkDoc 5] (by decide)⟩

/-- Helper: updating the paragraph list of a block leaves every heading
field unchanged. -/
theorem hGet_update_p (b : Block) (x : Option (List String)) (k : Nat) :
    Block.hGet { b with p := x } k = b.hGet k := by
  match k with
  | 0 => rfl
  | 1 => rfl
  | 2 => rfl
  | 3 => rfl
  | 4 => rfl
  | 5 => rfl
  | 6 => rfl
  | n + 7 => rfl

/-- Helper: the p-join at the end of base extraction leaves every heading
field unchanged. -/
theorem joinBlock_hGet (b : Block) (k : Nat) :
    (joinBlock b).hGet k = b.hGet k := by
  match k with
  | 0 => rfl
  | 1 => rfl
  | 2 => rfl
  | 3 => rfl
  | 4 => rfl
  | 5 => rfl
  | 6 => rfl
  | n + 7 => rfl

/-- Helper: chainStep only looks at heading fields, so it transfers to a
block with the same heading fields. -/
theorem chainStep_congr {prev : Block × Nat} {b b' : Block} {L : Nat}
    (h : chainStep prev (b, L)) (he : ∀ k, b'.hGet k = b.hGet k) :
    chainStep prev (b', L) := by
  obtain ⟨h1, h2, h3, h4, h5⟩ := h
  exact ⟨h1, h2, fun k hk1 hk2 => (he k).trans (h3 k hk1 hk2),
    h4.imp (fun s hs => (he L).trans hs), fun k hk1 hk2 => (he k).trans (h5 k hk1 hk2)⟩

/-- Helper: a heading makes the current block non-empty. -/
theorem headingSet_nonEmpty (b : Block) (L : Nat) (t id : String)
    (h1 : 1 ≤ L) (h6 : L ≤ 6) :
    (headingSet b L t id).nonEmpty = true := by
  interval_cases L <;> simp [headingSet, Block.nonEmpty]

/-- Helper: the block opened by a heading of level L carries the
shallower heading fields of the block it closed, holds the heading text
at level L and null at every deeper level - the reset/carry discipline of
full_page.ts. -/
theorem headingStep_chain (cur : Block) (o L : Nat) (t id : String)
    (h1 : 1 ≤ L) (h6 : L ≤ 6) :
    chainStep (cur, o) (headingSet (headingCarry cur L) L t id, L) := by
  refine ⟨h1, h6, ?_, ?_, ?_⟩
  · intro k hk1 hkL
    interval_cases L <;> interval_cases k <;>
      simp [headingSet, headingCarry, Block.hGet]
  · interval_cases L <;> exact ⟨t, rfl⟩
  · intro k hkL hk6
    interval_cases L <;> interval_cases k <;>
      simp [headingSet, headingCarry, Block.hGet]

/-- Helper: one step of the instrumented loop agrees with the faithful
loop once the bookkeeping is projected away. -/
theorem step_agree (st : FPState) (sa : FPAnnState)
    (hb : st.blocks = sa.blocks.map Prod.fst)
    (hc : st.currentBlock = sa.currentBlock) (e : Elem) :
    (fullPageStep st e).blocks = (fullPageStepAnn sa e).blocks.map Prod.fst ∧
    (fullPageStep st e).currentBlock = (fullPageStepAnn sa e).currentBlock := by
  cases e with
  | heading L t id =>
      by_cases hL : 1 ≤ L ∧ L ≤ 6
      · by_cases hne : sa.currentBlock.nonEmpty = true
        · simp [fullPageStep, fullPageStepAnn, hL, hne, hb, hc]
        · simp [fullPageStep, fullPageStepAnn, hL, hne, hb, hc]
      · simp [fullPageStep, fullPageStepAnn, hL, hb, hc]
  | textElem t =>
      simp [fullPageStep, fullPageStepAnn, hb, hc]

theorem fold_agree : ∀ (es : List Elem) (st : FPState) (sa : FPAnnState),
    st.blocks = sa.blocks.map Prod.fst →
    st.currentBlock = sa.currentBlock →
    (es.foldl fullPageStep st).blocks =
        ((es.foldl fullPageStepAnn sa).blocks).map Prod.fst ∧
    (es.foldl fullPageStep st).currentBlock =
        (es.foldl fullPageStepAnn sa).currentBlock
  | [], _, _, hb, hc => ⟨hb, hc⟩
  | e :: es, st, sa, hb, hc =>
      fold_agree es _ _ (step_agree st sa hb hc e).1 (step_agree st sa hb hc e).2

/-- Helper: the faithful block list is the projection of the instrumented
one. -/
theorem fullPageBlocksRaw_eq (es : List Elem) :
    fullPageBlocksRaw es = (annBlocks es).map Prod.fst := by
  obtain ⟨hb, hc⟩ := fold_agree es { blocks := [], currentBlock := {} }
      { blocks := [], currentBlock := {}, curOpen := 0 } rfl rfl
  unfold fullPageBlocksRaw annBlocks annRun
  simp only []
  rw [hc, hb]
  by_cases hne :
      ((es.foldl fullPageStepAnn
        { blocks := [], currentBlock := {}, curOpen := 0 }).currentBlock.nonEmpty
        = true) <;>
    simp [hne]

theorem processFullPageBlocks_eq (es : List Elem) :
    processFullPageBlocks es = (annBlocks es).map (fun p => joinBlock p.1) := by
  unfold processFullPageBlocks
  rw [fullPageBlocksRaw_eq, List.map_map]
  rfl

/-- Helper: replacing the final block of a chain with one whose heading
fields agree keeps the chain. -/
theorem chain_replace_last {l : List (Block × Nat)} {x x' : Block × Nat}
    (h : List.Chain' chainStep (l ++ [x]))
    (himp : ∀ prev, chainStep prev x → chainStep prev x') :
    List.Chain' chainStep (l ++ [x']) := by
  rw [List.chain'_append] at h ⊢
  refine ⟨h.1, List.chain'_singleton x', ?_⟩
  intro a ha b hb
  simp only [List.head?_cons, Option.mem_def, Option.some.injEq] at hb
  subst hb
  exact himp a (h.2.2 a ha x (by simp))

/-- Helper: the instrumented state keeps its chain invariant - the
produced blocks, followed by the block under construction, always stand
in the reset/carry relation, and the first block can only still be under
construction while nothing was pushed. -/
theorem ann_inv_step (sa : FPAnnState) (e : Elem)
    (h1 : List.Chain' chainStep (sa.blocks ++ [(sa.currentBlock, sa.curOpen)]))
    (h2 : sa.currentBlock.nonEmpty = false → sa.blocks = []) :
    List.Chain' chainStep ((fullPageStepAnn sa e).blocks ++
        [((fullPageStepAnn sa e).currentBlock, (fullPageStepAnn sa e).curOpen)]) ∧
    ((fullPageStepAnn sa e).currentBlock.nonEmpty = false →
        (fullPageStepAnn sa e).blocks = []) := by
  cases e with
  | textElem t =>
      refine ⟨?_, ?_⟩
      · simp only [fullPageStepAnn]
        exact chain_replace_last h1
          (fun prev hp => chainStep_congr hp
            (fun k => hGet_update_p sa.currentBlock _ k))
      · intro hne
        simp [fullPageStepAnn, Block.nonEmpty] at hne
  | heading L t id =>
      by_cases hL : 1 ≤ L ∧ L ≤ 6
      · by_cases hne : sa.currentBlock.nonEmpty = true
        · refine ⟨?_, ?_⟩
          · simp only [fullPageStepAnn, hL, if_true, hne, and_self]
            rw [List.chain'_append]
            refine ⟨h1, List.chain'_singleton _, ?_⟩
            intro a ha b hb
            simp only [List.head?_cons, Option.mem_def, Option.some.injEq] at hb
            subst hb
            rw [List.getLast?_concat] at ha
            simp only [Option.mem_def, Option.some.injEq] at ha
            subst ha
            exact headingStep_chain sa.currentBlock sa.curOpen L t id hL.1 hL.2
          · intro hne'
            simp only [fullPageStepAnn, hL, and_self, if_true, hne] at hne'
            rw [headingSet_nonEmpty _ _ _ _ hL.1 hL.2] at hne'
            cases hne'
        · have hblocks : sa.blocks = [] := h2 (by simpa using hne)
          refine ⟨?_, ?_⟩
          · simp only [fullPageStepAnn, hL, if_true, hne, hblocks]
            simp
          · intro hne'
            simp [fullPageStepAnn, hL, hne, hblocks]
      · simpa [fullPageStepAnn, hL] using ⟨h1, h2⟩

theorem ann_inv : ∀ (es : List Elem) (sa : FPAnnState),
    List.Chain' chainStep (sa.blocks ++ [(sa.currentBlock, sa.curOpen)]) →
    (sa.currentBlock.nonEmpty = false → sa.blocks = []) →
    List.Chain' chainStep ((es.foldl fullPageStepAnn sa).blocks ++
        [((es.foldl fullPageStepAnn sa).currentBlock,
          (es.foldl fullPageStepAnn sa).curOpen)]) ∧
    ((es.foldl fullPageStepAnn sa).currentBlock.nonEmpty = false →
        (es.foldl fullPageStepAnn sa).blocks = [])
  | [], _, h1, h2 => ⟨h1, h2⟩
  | e :: es, sa, h1, h2 =>
      ann_inv es _ (ann_inv_step sa e h1 h2).1 (ann_inv_step sa e h1 h2).2

/-- Helper: the instrumented block list of any element sequence is a
chain under the reset/carry relation. -/
theorem annBlocks_chain (es : List Elem) :
    List.Chain' chainStep (annBlocks es) := by
  obtain ⟨h1, h2⟩ := ann_inv es { blocks := [], currentBlock := {}, curOpen := 0 }
      (by simp) (fun _ => rfl)
  unfold annBlocks annRun
  simp only []
  by_cases hne :
      ((es.foldl fullPageStepAnn
        { blocks := [], currentBlock := {}, curOpen := 0 }).currentBlock.nonEmpty
        = true)
  · simp only [hne, if_true]
    exact h1
  · have hb := h2 (by simpa using hne)
    simp [hne, hb]

/-- Helper: adjacent entries of a chain, through getD. -/
theorem chain_link (l : List (Block × Nat))
    (h : List.Chain' chainStep l) (m : Nat) (hm : m + 1 < l.length) :
    chainStep (l.getD m annDflt) (l.getD (m + 1) annDflt) := by
  have h1 : m < l.length := by omega
  rw [List.getD_eq_getElem l annDflt h1, List.getD_eq_getElem l annDflt hm]
  exact List.chain'_iff_get.mp h m (by omega)

/-- Helper: a heading value persists along the chain while every
intervening block is opened by a strictly deeper heading. -/
theorem chain_carry (l : List (Block × Nat))
    (hch : List.Chain' chainStep l) (k : Nat) (s : String) (hk1 : 1 ≤ k) :
    ∀ j, j < l.length → ∀ i, i ≤ j →
    (∀ m, i < m → m ≤ j → k < (l.getD m annDflt).2) →
    (l.getD i annDflt).1.hGet k = some (.str s) →
    (l.getD j annDflt).1.hGet k = some (.str s) := by
  intro j
  induction j with
  | zero =>
      intro _ i hi _ hset
      interval_cases i
      exact hset
  | succ j ih =>
      intro hj i hi hm hset
      rcases Nat.eq_or_lt_of_le hi with he | hlt
      · rw [he] at hset
        exact hset
      · have hij : i ≤ j := Nat.lt_succ_iff.mp hlt
        have hprev : (l.getD j annDflt).1.hGet k = some (.str s) :=
          ih (by omega) i hij
            (fun m hm1 hm2 => hm m hm1 (Nat.le_succ_of_le hm2)) hset
        obtain ⟨_, _, hcarry, _, _⟩ := chain_link l hch j hj
        have hopen : k < (l.getD (j + 1) annDflt).2 := hm (j + 1) (by omega) le_rfl
        rw [hcarry k hk1 hopen, hprev]
        rfl

/-- C9: in the block sequence produced by base extraction, a heading
field h-k, once set to a heading text, persists unchanged on every later
block as long as every intervening block is opened by a strictly deeper
heading (a heading of level at most k would be needed to change it), and
every produced block after the first is opened by a heading that keeps
every shallower heading field by value, holds its own text at its level,
and resets every deeper heading field to null. -/
theorem heading_chain_persistence (es : List Elem) (k i j : Nat) (s : String)
    (hk1 : 1 ≤ k) (_hk6 : k ≤ 6) (hij : i ≤ j)
    (hj : j < (annBlocks es).length)
    (hdeeper : ∀ m ∈ Finset.Ico (i + 1) (j + 1),
        k < ((annBlocks es).getD m annDflt).2)
    (hset : ((annBlocks es).getD i annDflt).1.hGet k = some (.str s)) :
    ((processFullPageBlocks es).getD j outDflt).hGet k = some (.str s) ∧
    (∀ m, m + 1 < (annBlocks es).length →
        chainStep ((annBlocks es).getD m annDflt)
          ((annBlocks es).getD (m + 1) annDflt)) := by
  have hch := annBlocks_chain es
  constructor
  · have hblock : ((annBlocks es).getD j annDflt).1.hGet k = some (.str s) :=
      chain_carry (annBlocks es) hch k s hk1 j hj i hij
        (fun m hm1 hm2 =>
          hdeeper m (Finset.mem_Ico.mpr ⟨by omega, by omega⟩)) hset
    rw [processFullPageBlocks_eq]
    have hget : (((annBlocks es).map (fun p => joinBlock p.1)).getD j outDflt) =
        joinBlock ((annBlocks es).getD j annDflt).1 := by
      rw [List.getD_eq_getElem _ outDflt (by simpa using hj),
        List.getD_eq_getElem _ annDflt hj]
      simp
    rw [hget, joinBlock_hGet, hblock]
  · exact fun m hm => chain_link (annBlocks es) hch m hm

theorem heading_chain_persistence_witness :
    ((1 : Nat) ≤ 1) ∧ ((1 : Nat) ≤ 6) ∧ ((0 : Nat) ≤ 2) ∧
    (2 < (annBlocks
        [.heading 1 "A" "", .textElem "x", .heading 2 "B" "s2",
         .heading 2 "C" ""]).length) ∧
    (∀ m ∈ Finset.Ico (0 + 1) (2 + 1),
        1 < ((annBlocks
          [.heading 1 "A" "", .textElem "x", .heading 2 "B" "s2",
           .heading 2 "C" ""]).getD m annDflt).2) ∧
    (((annBlocks
        [.heading 1 "A" "", .textElem "x", .heading 2 "B" "s2",
         .heading 2 "C" ""]).getD 0 annDflt).1.hGet 1 =
      some (.str "A")) ∧
    (((processFullPageBlocks
        [.heading 1 "A" "", .textElem "x", .heading 2 "B" "s2",
         .heading 2 "C" ""]).getD 2 outDflt).hGet 1 = some (.str "A") ∧
    (∀ m, m + 1 < (annBlocks
        [.heading 1 "A" "", .textElem "x", .heading 2 "B" "s2",
         .heading 2 "C" ""]).length →
        chainStep ((annBlocks
          [.heading 1 "A" "", .textElem "x", .heading 2 "B" "s2",
           .heading 2 "C" ""]).getD m annDflt)
          ((annBlocks
            [.heading 1 "A" "", .textElem "x", .heading 2 "B" "s2",
             .heading 2 "C" ""]).getD (m + 1) annDflt))) :=
  ⟨by decide, by decide, by decide, by decide, by decide, by decide,
   heading_chain_persistence
     [.heading 1 "A" "", .textElem "x", .heading 2 "B" "s2",
      .heading 2 "C" ""]
     1 0 2 "A" (by decide) (by decide) (by decide) (by decide)
     (by decide) (by decide)⟩

/-- C10 counterexample: a crawl containing an extracted page with no
content blocks: the page document gets uid 0 but block splitting
produces no children for it, so the set of parent ids (empty) differs
from the set of extracted page ids. -/
theorem block_split_orphan_page_counterexample :
    crawlParentIds (crawlRun true [[]] 0).1 = [] ∧
    crawlPageIds (crawlRun true [[]] 0).1 = [0] ∧
    ([] : List Nat) ≠ [0] := by
  decide

theorem unitChildDocs_map_child (bs : List BlockDocument) :
    unitChildDocs (bs.map PublishUnit.child) = bs := by
  induction bs with
  | nil => rfl
  | cons b t ih => simp [unitChildDocs, List.foldr] at ih ⊢; exact ih

theorem unitParentIds_eq (us : List PublishUnit) :
    unitParentIds us = (unitChildDocs us).map (fun b => b.parent_document_id) := by
  induction us with
  | nil => rfl
  | cons u t ih =>
      cases u <;> simp [unitParentIds, unitChildDocs, List.foldr] at ih ⊢ <;>
        exact ih

/-- Helper: one page through the split pipeline - the page uid is the
fresh counter, the children enumerate the blocks with consecutive fresh
uids, the shared parent id and positions 0, 1, 2, ... -/
theorem pipelinePage_spec (es : List Elem) (ctr : Nat) :
    (pipelinePage true es ctr).1.1 =
      { uid := some ctr, blocks := processFullPageBlocks es } ∧
    (pipelinePage true es ctr).1.2 =
      ((processFullPageBlocks es).enum.map (fun ib =>
        PublishUnit.child
          { uid := ctr + 1 + ib.1, parent_document_id := ctr,
            page_block := ib.1, block := ib.2 })) ∧
    (pipelinePage true es ctr).2 =
      ctr + 1 + (processFullPageBlocks es).length := by
  simp [pipelinePage, processFullPageDoc, processBlockSplit]

/-- Helper: the children of one page, by field. -/
theorem pipelinePage_children (es : List Elem) (ctr : Nat) :
    (unitChildDocs (pipelinePage true es ctr).1.2).map (fun b => b.uid) =
      (List.range (processFullPageBlocks es).length).map (fun i => ctr + 1 + i) ∧
    (unitChildDocs (pipelinePage true es ctr).1.2).map
        (fun b => b.parent_document_id) =
      List.replicate (processFullPageBlocks es).length ctr ∧
    (unitChildDocs (pipelinePage true es ctr).1.2).map (fun b => b.page_block) =
      List.range (processFullPageBlocks es).length := by
  obtain ⟨_, h2, _⟩ := pipelinePage_spec es ctr
  rw [h2]
  rw [show (fun ib : Nat × OutBlock =>
        PublishUnit.child
          { uid := ctr + 1 + ib.1, parent_document_id := ctr,
            page_block := ib.1, block := ib.2 }) =
      (PublishUnit.child ∘ fun ib : Nat × OutBlock =>
        ({ uid := ctr + 1 + ib.1, parent_document_id := ctr,
           page_block := ib.1, block := ib.2 } : BlockDocument)) from rfl]
  rw [← List.map_map, unitChildDocs_map_child]
  refine ⟨?_, ?_, ?_⟩
  · rw [List.map_map, ← List.enum_map_fst (processFullPageBlocks es),
      List.map_map]
    rfl
  · rw [List.map_map]
    have hconst : ((fun b : BlockDocument => b.parent_document_id) ∘
        (fun ib : Nat × OutBlock =>
          ({ uid := ctr + 1 + ib.1, parent_document_id := ctr,
             page_block := ib.1, block := ib.2 } : BlockDocument))) =
        Function.const (Nat × OutBlock) ctr := rfl
    rw [hconst, List.map_const, List.enum_length]
  · rw [List.map_map, ← List.enum_map_fst (processFullPageBlocks es)]
    rfl

theorem crawlChildren_cons (pu : PageDoc × List PublishUnit)
    (t : List (PageDoc × List PublishUnit)) :
    crawlChildren (pu :: t) = unitChildDocs pu.2 ++ crawlChildren t := by
  simp [crawlChildren]

/-- Helper: the whole-crawl invariant of the split pipeline: the counter
only grows, every page document carries a fresh uid with its children
sharing it as parent id and counting positions from 0, every child uid
lies in the id range consumed by the run, and the child uids are
strictly increasing across the crawl. -/
theorem crawlRun_spec : ∀ (pages : List (List Elem)) (ctr : Nat),
    ctr ≤ (crawlRun true pages ctr).2 ∧
    (∀ pu ∈ (crawlRun true pages ctr).1,
        ∃ u, pu.1.uid = some u ∧ ctr ≤ u ∧ u < (crawlRun true pages ctr).2 ∧
          (unitChildDocs pu.2).map (fun b => b.parent_document_id) =
            List.replicate pu.1.blocks.length u ∧
          (unitChildDocs pu.2).map (fun b => b.page_block) =
            List.range pu.1.blocks.length) ∧
    (∀ b ∈ crawlChildren (crawlRun true pages ctr).1,
        ctr ≤ b.uid ∧ b.uid < (crawlRun true pages ctr).2) ∧
    ((crawlChildren (crawlRun true pages ctr).1).map (fun b => b.uid)).Pairwise
      (· < ·)
  | [], ctr => by
      simp [crawlRun, crawlChildren]
  | es :: rest, ctr => by
      obtain ⟨ih1, ih2, ih3, ih4⟩ := crawlRun_spec rest (pipelinePage true es ctr).2
      obtain ⟨hp1, hp2, hp3⟩ := pipelinePage_spec es ctr
      obtain ⟨hc1, hc2, hc3⟩ := pipelinePage_children es ctr
      have hrun : crawlRun true (es :: rest) ctr =
          ((pipelinePage true es ctr).1 ::
            (crawlRun true rest (pipelinePage true es ctr).2).1,
           (crawlRun true rest (pipelinePage true es ctr).2).2) := rfl
      have hctr2 : ctr + 1 + (processFullPageBlocks es).length ≤
          (crawlRun true rest (pipelinePage true es ctr).2).2 := by
        rw [← hp3]; exact ih1
      have hthis : ∀ b ∈ unitChildDocs (pipelinePage true es ctr).1.2,
          ctr + 1 ≤ b.uid ∧
          b.uid < ctr + 1 + (processFullPageBlocks es).length := by
        intro b hb
        have : b.uid ∈ (unitChildDocs (pipelinePage true es ctr).1.2).map
            (fun b => b.uid) := List.mem_map_of_mem _ hb
        rw [hc1] at this
        obtain ⟨i, hi, hbu⟩ := List.mem_map.mp this
        have hilt := List.mem_range.mp hi
        omega
      rw [hrun]
      refine ⟨?_, ?_, ?_, ?_⟩
      · simp only
        omega
      · intro pu hpu
        rcases List.mem_cons.mp hpu with he | hm
        · subst he
          refine ⟨ctr, ?_, le_rfl, ?_, ?_, ?_⟩
          · rw [hp1]
          · simp only
            omega
          · rw [hp1]
            simpa using hc2
          · rw [hp1]
            simpa using hc3
        · obtain ⟨u, hu1, hu2, hu3, hu4, hu5⟩ := ih2 pu hm
          exact ⟨u, hu1, by omega, hu3, hu4, hu5⟩
      · intro b hb
        rw [crawlChildren_cons] at hb
        rcases List.mem_append.mp hb with hl | hr
        · obtain ⟨hb1, hb2⟩ := hthis b hl
          constructor
          · omega
          · simp only
            omega
        · obtain ⟨hb1, hb2⟩ := ih3 b hr
          rw [hp3] at hb1
          exact ⟨by omega, hb2⟩
      · rw [crawlChildren_cons, List.map_append]
        rw [List.pairwise_append]
        refine ⟨?_, ih4, ?_⟩
        · rw [hc1]
          refine List.Pairwise.map _ ?_ (List.pairwise_lt_range _)
          intro a b hab
          omega
        · intro a ha b hb
          obtain ⟨ba, hba, hbau⟩ := List.mem_map.mp ha
          obtain ⟨bb, hbb, hbbu⟩ := List.mem_map.mp hb
          obtain ⟨_, h2a⟩ := hthis ba hba
          obtain ⟨h1b, _⟩ := ih3 bb hbb
          rw [hp3] at h1b
          omega

/-- C10 (corrected): with block splitting enabled, every child document
across the crawl has a unique id, the children of one page all share
exactly one parent id - the page document's own uid - with position
indices 0, 1, 2, ..., and a parent id occurs in the crawl output exactly
for the extracted pages that produced at least one block: a page with an
empty block list yields no children, so its id is absent from the parent
id set. -/
theorem block_split_crawl_properties (pages : List (List Elem)) (ctr : Nat) :
    ((crawlChildren (crawlRun true pages ctr).1).map (fun b => b.uid)).Nodup ∧
    (∀ pu ∈ (crawlRun true pages ctr).1,
        ∃ u, pu.1.uid = some u ∧
          (unitChildDocs pu.2).map (fun b => b.parent_document_id) =
            List.replicate pu.1.blocks.length u ∧
          (unitChildDocs pu.2).map (fun b => b.page_block) =
            List.range pu.1.blocks.length) ∧
    (∀ x, x ∈ crawlParentIds (crawlRun true pages ctr).1 ↔
        ∃ pu ∈ (crawlRun true pages ctr).1,
          pu.1.uid = some x ∧ pu.1.blocks ≠ []) := by
  obtain ⟨_, h2, _, h4⟩ := crawlRun_spec pages ctr
  refine ⟨h4.imp (fun h => Nat.ne_of_lt h), ?_, ?_⟩
  · intro pu hpu
    obtain ⟨u, hu1, _, _, hu4, hu5⟩ := h2 pu hpu
    exact ⟨u, hu1, hu4, hu5⟩
  · intro x
    rw [crawlParentIds, List.mem_dedup, List.mem_flatMap]
    constructor
    · rintro ⟨pu, hpu, hx⟩
      obtain ⟨u, hu1, _, _, hu4, _⟩ := h2 pu hpu
      rw [unitParentIds_eq, hu4] at hx
      obtain ⟨hn, hxu⟩ := List.mem_replicate.mp hx
      refine ⟨pu, hpu, ?_, ?_⟩
      · rw [hxu]
        exact hu1
      · intro hempty
        apply hn
        rw [hempty]
        rfl
    · rintro ⟨pu, hpu, hx1, hx2⟩
      obtain ⟨u, hu1, _, _, hu4, _⟩ := h2 pu hpu
      have hux : u = x := by
        rw [hu1] at hx1
        exact Option.some.inj hx1
      refine ⟨pu, hpu, ?_⟩
      rw [unitParentIds_eq, hu4]
      refine List.mem_replicate.mpr ⟨?_, hux.symm⟩
      intro hlen
      exact hx2 (List.length_eq_zero.mp hlen)

theorem block_split_crawl_properties_witness :
    (((crawlChildren (crawlRun true
        [[], [.heading 1 "A" "", .heading 2 "B" ""], [.textElem "x"]] 0).1).map
      (fun b => b.uid)).Nodup ∧
    (∀ pu ∈ (crawlRun true
        [[], [.heading 1 "A" "", .heading 2 "B" ""], [.textElem "x"]] 0).1,
        ∃ u, pu.1.uid = some u ∧
          (unitChildDocs pu.2).map (fun b => b.parent_document_id) =
            List.replicate pu.1.blocks.length u ∧
          (unitChildDocs pu.2).map (fun b => b.page_block) =
            List.range pu.1.blocks.length) ∧
    (∀ x, x ∈ crawlParentIds (crawlRun true
        [[], [.heading 1 "A" "", .heading 2 "B" ""], [.textElem "x"]] 0).1 ↔
        ∃ pu ∈ (crawlRun true
          [[], [.heading 1 "A" "", .heading 2 "B" ""], [.textElem "x"]] 0).1,
          pu.1.uid = some x ∧ pu.1.blocks ≠ [])) :=
  block_split_crawl_properties
    [[], [.heading 1 "A" "", .heading 2 "B" ""], [.textElem "x"]] 0

end Scrapix
